import Mathlib

set_option maxRecDepth 100000

/-!
Verification of the Codeforces submission-analysis and prompt/fallback
synthesis pipeline of this repository.

The JavaScript source is shallowly embedded:

* `analyzeSubmissions` (frontend service file, the unnamed part) is a pure
  left-to-right pass over the submission list.  JS objects with string keys
  and `Map`s preserve insertion order, so they are embedded as
  insertion-ordered association lists (`List (key × value)`), with
  `alistBump` modelling `m[k] = (m[k] || 0) + 1` and `alistSet` modelling
  `Map.set`.  (`solvedByRating` has integer-like keys, which JS iterates in
  ascending numeric order; the only consumer, `ratingDistribution`, re-sorts
  ascending by key anyway, so the insertion-ordered embedding is sound there.)
* `Array.prototype.sort` is stable (ES2019); it is embedded as the stable
  insertion sort `sortStable`, which keeps the original (first-seen) order of
  elements the comparator ties.
* JS numbers appearing in the synthesizers' template strings are embedded as
  exact rationals, except that division is `jsDiv`, which reproduces the IEEE
  special cases `0/0 = NaN` and `x/0 = ±Infinity`; `toFixed` is embedded as
  exact decimal rounding (ties to the larger value, as the ECMAScript
  `toFixed` specification prescribes).  All quantities fed to `toFixed` by
  this code are small counts and ratings, where exact rational rounding and
  double rounding agree.
* JS truthiness on defaulted fields (`x || d`) is embedded explicitly:
  `0`, `""`, `null`/`undefined` select the default.
-/

namespace CF

/-! ## Data model (mirrors the Codeforces API shapes used by the source) -/

structure Problem where
  contestId : Nat
  index : String
  tags : List String
  rating : Option Nat
deriving DecidableEq, Repr

structure Submission where
  problem : Problem
  verdict : String
  programmingLanguage : String
  creationTimeSeconds : Nat
deriving DecidableEq, Repr

/-- `` `${submission.problem.contestId}-${submission.problem.index}` `` -/
def problemKey (s : Submission) : String :=
  toString s.problem.contestId ++ "-" ++ s.problem.index

/-- The per-problem record kept in the `problemStats` map. -/
structure PState where
  solved : Bool
  attempts : Nat
  tags : List String
  rating : Option Nat
  lastAttempt : Nat
deriving DecidableEq, Repr

/-! ## Insertion-ordered association lists (JS objects / Maps) -/

def alistLookup {α β : Type} [DecidableEq α] : List (α × β) → α → Option β
  | [], _ => none
  | (k', v) :: rest, k => if k' = k then some v else alistLookup rest k

def alistLookupD {α β : Type} [DecidableEq α] (m : List (α × β)) (k : α) (d : β) : β :=
  (alistLookup m k).getD d

/-- JS `m[k] = (m[k] || 0) + 1`: bump in place, append `(k, 1)` if absent. -/
def alistBump {α : Type} [DecidableEq α] : List (α × Nat) → α → List (α × Nat)
  | [], k => [(k, 1)]
  | (k', v) :: rest, k =>
    if k' = k then (k', v + 1) :: rest else (k', v) :: alistBump rest k

/-- JS `Map.set`: update in place keeping insertion position, append if absent. -/
def alistSet {α β : Type} [DecidableEq α] : List (α × β) → α → β → List (α × β)
  | [], k, v => [(k, v)]
  | (k', v') :: rest, k, v =>
    if k' = k then (k', v) :: rest else (k', v') :: alistSet rest k v

def sumValues {α : Type} (m : List (α × Nat)) : Nat := (m.map Prod.snd).sum

/-! ## Stable sort (model of `Array.prototype.sort`, stable per ES2019) -/

/-- Insert `x` strictly before the first element it must precede; after any
element the comparator ties with, so later-arriving elements keep their
relative (first-seen) order. -/
def insertStable {α : Type} (le : α → α → Bool) (x : α) : List α → List α
  | [] => [x]
  | y :: ys => if le x y && !le y x then x :: y :: ys else y :: insertStable le x ys

def sortStable {α : Type} (le : α → α → Bool) (l : List α) : List α :=
  l.foldl (fun acc x => insertStable le x acc) []

/-- Comparator `(a, b) => b[1] - a[1]` (count descending). -/
def byCountDesc {α : Type} (a b : α × Nat) : Bool := decide (b.2 ≤ a.2)

/-- Comparator `(a, b) => a[1] - b[1]` (count ascending). -/
def byCountAsc {α : Type} (a b : α × Nat) : Bool := decide (a.2 ≤ b.2)

/-- Comparator `(a, b) => parseInt(a[0]) - parseInt(b[0])` (rating ascending). -/
def byKeyAsc (a b : Nat × Nat) : Bool := decide (a.1 ≤ b.1)

def listMax (l : List Nat) : Nat := l.foldr max 0

/-! ## The Analyzer (`analyzeSubmissions`) -/

/-- The mutable locals of `analyzeSubmissions` during the `forEach` pass. -/
structure AnalyzerState where
  solvedProblems : List String
  solvedByTag : List (String × Nat)
  solvedByRating : List (Nat × Nat)
  verdicts : List (String × Nat)
  languages : List (String × Nat)
  problemStats : List (String × PState)
  attemptsPerProblem : List (String × Nat)
  totalAccepted : Nat
  maxAttempts : Nat
  totalAttempts : Nat
deriving DecidableEq, Repr

def initState : AnalyzerState :=
  { solvedProblems := [], solvedByTag := [], solvedByRating := [], verdicts := []
    languages := [], problemStats := [], attemptsPerProblem := []
    totalAccepted := 0, maxAttempts := 0, totalAttempts := 0 }

/-- `problemStats.get(problemKey)` after the lazy initialisation on first
sight of the problem. -/
def stats0 (st : AnalyzerState) (s : Submission) : PState :=
  (alistLookup st.problemStats (problemKey s)).getD
    { solved := false, attempts := 0, tags := s.problem.tags
      rating := s.problem.rating, lastAttempt := s.creationTimeSeconds }

/-- One iteration of the `submissions.forEach` body of `analyzeSubmissions`. -/
def step (st : AnalyzerState) (s : Submission) : AnalyzerState :=
  let key := problemKey s
  let attempts1 := (stats0 st s).attempts + 1
  let last1 := max (stats0 st s).lastAttempt s.creationTimeSeconds
  let solved1 := (stats0 st s).solved || decide (s.verdict = "OK")
  -- the body of `if (submission.verdict === 'OK')` + `if (!solvedProblems.has(key))`
  let firstSolve := s.verdict = "OK" ∧ key ∉ st.solvedProblems
  { solvedProblems := if firstSolve then st.solvedProblems ++ [key] else st.solvedProblems
    solvedByTag :=
      if firstSolve then s.problem.tags.foldl alistBump st.solvedByTag else st.solvedByTag
    solvedByRating :=
      -- `if (submission.problem.rating)`: JS truthiness, `0`/absent skipped
      if firstSolve ∧ s.problem.rating.getD 0 ≠ 0 then
        alistBump st.solvedByRating (s.problem.rating.getD 0)
      else st.solvedByRating
    verdicts := alistBump st.verdicts s.verdict
    languages := alistBump st.languages s.programmingLanguage
    problemStats := alistSet st.problemStats key
      { solved := solved1, attempts := attempts1, tags := (stats0 st s).tags
        rating := (stats0 st s).rating, lastAttempt := last1 }
    attemptsPerProblem := alistSet st.attemptsPerProblem key attempts1
    totalAccepted := if s.verdict = "OK" then st.totalAccepted + 1 else st.totalAccepted
    maxAttempts := max st.maxAttempts attempts1
    totalAttempts := st.totalAttempts + 1 }

def analyzeState (l : List Submission) : AnalyzerState := l.foldl step initState

/-- Per-tag `(total, count)` accumulator for `problemAccuracy`. -/
def accBump : List (String × (ℚ × Nat)) → String → ℚ → List (String × (ℚ × Nat))
  | [], t, a => [(t, (a, 1))]
  | (t', p) :: rest, t, a =>
    if t' = t then (t', (p.1 + a, p.2 + 1)) :: rest else (t', p) :: accBump rest t a

/-- The value returned by `analyzeSubmissions`. -/
structure Analysis where
  totalProblemsSolved : Nat
  totalSubmissions : Nat
  totalAccepted : Nat
  totalAttempts : Nat
  solvedByTag : List (String × Nat)
  solvedByRating : List (Nat × Nat)
  verdicts : List (String × Nat)
  languages : List (String × Nat)
  topTags : List (String × Nat)
  weakTags : List String
  ratingDistribution : List (Nat × Nat)
  topLanguages : List (String × Nat)
  maxAttempts : Nat
  tagAccuracy : List (String × ℚ)
  highestSolvedRating : Nat
  problemStats : List (String × PState)
  attemptsPerProblem : List (String × Nat)
deriving DecidableEq, Repr

def analyzeSubmissions (submissions : List Submission) : Analysis :=
  let st := analyzeState submissions
  -- second pass: `problemStats.forEach` accumulating per-tag accuracy
  let problemAccuracy := st.problemStats.foldl
    (fun acc kps =>
      if kps.2.solved then
        kps.2.tags.foldl (fun a t => accBump a t (1 / (kps.2.attempts : ℚ))) acc
      else acc) []
  let tagAccuracy := problemAccuracy.map (fun p => (p.1, p.2.1 / (p.2.2 : ℚ)))
  let topTags := (sortStable byCountDesc st.solvedByTag).take 10
  let weakTags := ((sortStable byCountAsc st.solvedByTag).take 5).map Prod.fst
  let ratingDistribution := sortStable byKeyAsc st.solvedByRating
  let topLanguages := (sortStable byCountDesc st.languages).take 5
  let highestSolvedRating :=
    match ratingDistribution with
    | [] => 0
    | _ => listMax (ratingDistribution.map Prod.fst)
  { totalProblemsSolved := st.solvedProblems.length
    totalSubmissions := submissions.length
    totalAccepted := st.totalAccepted
    totalAttempts := st.totalAttempts
    solvedByTag := st.solvedByTag
    solvedByRating := st.solvedByRating
    verdicts := st.verdicts
    languages := st.languages
    topTags := topTags
    weakTags := weakTags
    ratingDistribution := ratingDistribution
    topLanguages := topLanguages
    maxAttempts := st.maxAttempts
    tagAccuracy := tagAccuracy
    highestSolvedRating := highestSolvedRating
    problemStats := st.problemStats
    attemptsPerProblem := st.attemptsPerProblem }

/-! ## Order-free reference quantities used by the theorems -/

/-- The first accepted submission for key `k` (the one whose tags/rating feed
`solvedByTag`/`solvedByRating`). -/
def firstOk (l : List Submission) (k : String) : Option Submission :=
  l.find? (fun s => decide (problemKey s = k) && decide (s.verdict = "OK"))

def firstOkTags (l : List Submission) (k : String) : List String :=
  match firstOk l k with
  | some s => s.problem.tags
  | none => []

def firstOkRating (l : List Submission) (k : String) : Option Nat :=
  (firstOk l k).bind (fun s => s.problem.rating)

/-- The loop invariant of the analyzer pass: after consuming `l`, every
aggregate of the running state is characterised by an order-free (or
first-occurrence-explicit) function of `l`. -/
structure AnalyzerInv (l : List Submission) (st : AnalyzerState) : Prop where
  totalAttempts_eq : st.totalAttempts = l.length
  totalAccepted_eq : st.totalAccepted = l.countP (fun s => decide (s.verdict = "OK"))
  solved_nodup : st.solvedProblems.Nodup
  solved_mem : ∀ k, k ∈ st.solvedProblems ↔ ∃ s ∈ l, problemKey s = k ∧ s.verdict = "OK"
  stats_isSome : ∀ k, (alistLookup st.problemStats k).isSome = true ↔ ∃ s ∈ l, problemKey s = k
  stats_attempts : ∀ k ps, alistLookup st.problemStats k = some ps →
    ps.attempts = l.countP (fun s => decide (problemKey s = k))
  stats_solved : ∀ k ps, alistLookup st.problemStats k = some ps →
    (ps.solved = true ↔ ∃ s ∈ l, problemKey s = k ∧ s.verdict = "OK")
  stats_last : ∀ k ps, alistLookup st.problemStats k = some ps →
    ps.lastAttempt =
      listMax ((l.filter (fun s => decide (problemKey s = k))).map Submission.creationTimeSeconds)
  max_eq : st.maxAttempts =
    listMax (((l.map problemKey).dedup).map (fun k => l.countP (fun s => decide (problemKey s = k))))
  tag_eq : ∀ t, alistLookupD st.solvedByTag t 0 =
    (st.solvedProblems.map (fun k => (firstOkTags l k).count t)).sum
  rating_sum : sumValues st.solvedByRating =
    st.solvedProblems.countP (fun k => decide ((firstOkRating l k).getD 0 ≠ 0))
  rating_eq : ∀ r, alistLookupD st.solvedByRating r 0 =
    st.solvedProblems.countP
      (fun k => decide ((firstOkRating l k).getD 0 = r ∧ r ≠ 0))

/-! ## JS numbers in the synthesizers' template strings

Only the ratio texts need the IEEE special values: in JS `0/0` is `NaN` and
`x/0` is `±Infinity`, and `(NaN).toFixed(1)` is the string `"NaN"`. -/

inductive JsNum where
  | nan
  | posInf
  | negInf
  | num (q : ℚ)
deriving DecidableEq, Repr

def jsDiv (a b : ℚ) : JsNum :=
  if b = 0 then (if a = 0 then .nan else if 0 < a then .posInf else .negInf)
  else .num (a / b)

/-- Multiplication by a (positive) literal constant, as in `(x) * 100`. -/
def jsMulC (x : JsNum) (c : ℚ) : JsNum :=
  match x with
  | .nan => .nan
  | .posInf => .posInf
  | .negInf => .negInf
  | .num q => .num (q * c)

/-- `toFixed(1)` on a finite value: nearest multiple of 1/10, ties to the
larger value (ECMAScript `toFixed`). -/
def toFixed1Q (q : ℚ) : String :=
  let n : Int := Int.floor (q * 10 + 1 / 2)
  if n < 0 then "-" ++ toString ((-n).toNat / 10) ++ "." ++ toString ((-n).toNat % 10)
  else toString (n.toNat / 10) ++ "." ++ toString (n.toNat % 10)

/-- `toFixed(0)` on a finite value: nearest integer, ties to the larger. -/
def toFixed0Q (q : ℚ) : String :=
  toString (Int.floor (q + 1 / 2))

def jsToFixed1 : JsNum → String
  | .nan => "NaN"
  | .posInf => "Infinity"
  | .negInf => "-Infinity"
  | .num q => toFixed1Q q

/-- `((num / den) * 100).toFixed(1)` — the acceptance-rate and
language-usage ratio text. -/
def percentStr (num den : Nat) : String :=
  jsToFixed1 (jsMulC (jsDiv (num : ℚ) (den : ℚ)) 100)

/-! ## JS truthiness on defaulted profile fields -/

/-- Profile fields used by the synthesizers (`userData`). -/
structure UserData where
  rating : Option Int
  rank : Option String
  maxRating : Option Int
  organization : Option String
deriving DecidableEq, Repr

/-- `x || d` on an optional number: `0` and absent both select the default. -/
def jsOrInt (x : Option Int) (d : Int) : Int :=
  match x with
  | some v => if v = 0 then d else v
  | none => d

/-- `x || d` on an optional string: `""` and absent both select the default. -/
def jsOrStr (x : Option String) (d : String) : String :=
  match x with
  | some v => if v = "" then d else v
  | none => d

/-- `` `${x || 'Unrated'}` `` on an optional number, rendered into text. -/
def jsShowIntOr (x : Option Int) (d : String) : String :=
  match x with
  | some v => if v = 0 then d else toString v
  | none => d

/-- `` `${a || b || 'Unrated'}` ``. -/
def jsShowIntOrChain (a b : Option Int) (d : String) : String :=
  match a with
  | some v => if v = 0 then jsShowIntOr b d else toString v
  | none => jsShowIntOr b d

/-- `arr[0] || d`: empty array, or an empty-string head, selects the default. -/
def jsHeadOr (l : List String) (d : String) : String :=
  match l with
  | [] => d
  | t :: _ => if t = "" then d else t

/-- `list.forEach((x, index) => acc += f(index, x))`. -/
def numbered {α : Type} (acc : String) (l : List α) (f : Nat → α → String) : String :=
  l.enum.foldl (fun a p => a ++ f p.1 p.2) acc

/-! ## The Prompt Synthesizer (`generateCodeforcesPrompt`, backend) -/

def generateCodeforcesPrompt (handle : String) (userData : UserData)
    (analysis : Analysis) : String :=
  let userRating := jsOrInt userData.rating 0
  let userRank := jsOrStr userData.rank "unrated"
  let p := "I have analyzed the Codeforces profile of " ++ handle ++
    ". Here\x27s a detailed analysis:\n\n"
  let p := p ++ "User Information:\n"
  let p := p ++ "- Handle: " ++ handle ++ "\n"
  let p := p ++ "- Current Rating: " ++ toString userRating ++ " (" ++ userRank ++ ")\n"
  let p := p ++ "- Max Rating: " ++ toString (jsOrInt userData.maxRating userRating) ++ "\n"
  let p := p ++ "- Organization: " ++ jsOrStr userData.organization "Not specified" ++ "\n\n"
  let p := p ++ "Performance Metrics:\n"
  let p := p ++ "- Total Problems Solved: " ++ toString analysis.totalProblemsSolved ++ "\n"
  let p := p ++ "- Total Submissions: " ++ toString analysis.totalSubmissions ++ "\n"
  let p := p ++ "- Acceptance Rate: " ++
    percentStr analysis.totalAccepted analysis.totalSubmissions ++ "%\n"
  let p := p ++ "- Highest Solved Rating: " ++ toString analysis.highestSolvedRating ++ "\n\n"
  let p := p ++ "Strengths (Top Problem Tags):\n"
  let p :=
    if 0 < analysis.topTags.length then
      numbered p (analysis.topTags.take 5) (fun i tc =>
        toString (i + 1) ++ ". " ++ tc.1 ++ ": " ++ toString tc.2 ++ " problems solved\n")
    else p ++ "No tag data available\n"
  let p := p ++ "\nAreas for Improvement (Weakest Tags):\n"
  let p :=
    if 0 < analysis.weakTags.length then
      numbered p analysis.weakTags (fun i tag =>
        toString (i + 1) ++ ". " ++ tag ++ ": Only " ++
          toString (alistLookupD analysis.solvedByTag tag 0) ++ " problems solved\n")
    else p ++ "No weakness data available\n"
  let p := p ++ "\nRating Distribution Analysis:\n"
  let p :=
    if 0 < analysis.ratingDistribution.length then
      let ratings := analysis.ratingDistribution.map Prod.fst
      let avg : ℚ := ((ratings.map (fun r => (r : ℚ))).sum) / (ratings.length : ℚ)
      ((p ++ "- Average solved problem rating: " ++ toFixed0Q avg ++ "\n") ++
        "- Current rating capability: " ++ toString userRating ++ "\n") ++
        "- Gap to next level: " ++ toFixed0Q (max 0 ((userRating : ℚ) + 100 - avg)) ++
        " rating points\n"
    else p ++ "No rating distribution data available\n"
  let p := p ++ "\nProgramming Language Usage:\n"
  let p :=
    if 0 < analysis.topLanguages.length then
      numbered p analysis.topLanguages (fun i lc =>
        toString (i + 1) ++ ". " ++ lc.1 ++ ": " ++
          percentStr lc.2 analysis.totalSubmissions ++ "% of submissions\n")
    else p ++ "No language data available\n"
  let p := p ++ "\nProblem-Solving Patterns:\n"
  let p := p ++ "- Maximum attempts on a single problem: " ++
    (if analysis.maxAttempts = 0 then "N/A" else toString analysis.maxAttempts) ++ "\n"
  let p :=
    if 5 < analysis.maxAttempts then
      p ++ "- Pattern: Tendency to persist on difficult problems (good for learning)\n"
    else
      p ++ "- Pattern: Efficient problem-solver, moves on quickly\n"
  let p := p ++ "\nBased on this analysis, please provide:\n"
  let p := p ++ "1. Specific competitive programming areas to focus on\n"
  let p := p ++ "2. Recommended problem ratings to target (current level and next level)\n"
  let p := p ++ "3. Study plan suggestions\n"
  let p := p ++ "4. Key problem types to practice\n"
  let p := p ++ "5. Tips to improve contest performance\n"
  let p := p ++
    "6. Recommended Codeforces problem IDs to solve next (provide 5-10 specific problem IDs with ratings)\n"
  p ++ "\nPlease structure your response with clear sections and be specific about problem recommendations."

/-! ## The Fallback Synthesizer, backend copy (`generateCodeforcesFallback`) -/

def generateCodeforcesFallback (handle : String) (userData : UserData)
    (analysis : Analysis) : String :=
  let userRating := jsOrInt userData.rating 1200
  let lo := max 800 (userRating - 100)
  let hi := userRating + 100
  let r := "## Codeforces Analysis for " ++ handle ++ "\n\n"
  let r := r ++ "### 📊 Basic Statistics\n"
  let r := r ++ "- **Rating**: " ++ jsShowIntOr userData.rating "Unrated" ++ " (" ++
    jsOrStr userData.rank "Unranked" ++ ")\n"
  let r := r ++ "- **Max Rating**: " ++
    jsShowIntOrChain userData.maxRating userData.rating "Unrated" ++ "\n"
  -- `analysis.totalProblemsSolved || 0` is the identity on a count
  let r := r ++ "- **Problems Solved**: " ++ toString analysis.totalProblemsSolved ++ "\n"
  let r := r ++ "- **Acceptance Rate**: " ++
    (if 0 < analysis.totalSubmissions then
      percentStr analysis.totalAccepted analysis.totalSubmissions
    else "0") ++ "%\n\n"
  -- JS `if (cond) r += section` is embedded as `r ++ (if cond then section else "")`
  let r := r ++
    (if 0 < analysis.topTags.length then
      numbered "### 🏆 Top Strengths\n" (analysis.topTags.take 3) (fun i tc =>
        toString (i + 1) ++ ". **" ++ tc.1 ++ "**: " ++ toString tc.2 ++ " problems solved\n")
    else "")
  let r := r ++
    (if 0 < analysis.weakTags.length then
      numbered "\n### 📈 Areas for Improvement\n" (analysis.weakTags.take 3) (fun i tag =>
        toString (i + 1) ++ ". **" ++ tag ++ "**: Only " ++
          toString (alistLookupD analysis.solvedByTag tag 0) ++ " problems solved\n")
    else "")
  let r := r ++ "\n### 🎯 Recommended Next Steps\n"
  let r := r ++ "1. **Target Rating**: Practice problems rated " ++ toString lo ++ "-" ++
    toString hi ++ "\n"
  let r := r ++ "2. **Weak Areas**: Focus on " ++
    jsHeadOr analysis.weakTags "dynamic programming" ++ " problems\n"
  let r := r ++ "3. **Contest Strategy**: Participate in Div 2 contests regularly\n"
  let r := r ++ "4. **Learning Plan**: Solve 5-10 problems daily from different categories\n\n"
  let r := r ++ "### 💡 Specific Recommendations\n"
  let r := r ++ "- **Immediate Focus**: " ++ jsHeadOr analysis.weakTags "Graph Theory" ++
    " problems\n"
  let r := r ++ "- **Problem Count**: Aim for 50 more solves in your weak areas\n"
  let r := r ++ "- **Rating Goal**: Target " ++ toString (userRating + 100) ++
    " within 2 months\n"
  let r := r ++ "- **Resources**: Use Codeforces Edu section for tutorials\n\n"
  let r := r ++ "### 🔗 Recommended Practice Problems\n"
  let r := r ++ "(These are general recommendations - connect to backend for specific problem IDs)\n"
  let r := r ++ "1. Search Codeforces for \"" ++ jsHeadOr analysis.weakTags "dp" ++
    "\" tagged problems at " ++ toString lo ++ " rating\n"
  let r := r ++ "2. Try recent Div 2 A/B problems to build speed\n"
  r ++ "3. Practice virtual contests to simulate real competition\n"

/-! ## The Fallback Synthesizer, frontend copy (`generateFallbackRecommendations`)

Identical template except: the acceptance-rate ratio is *not* guarded against
a zero denominator, and the strengths/weaknesses sections are unconditional. -/

def generateFallbackRecommendations (handle : String) (userData : UserData)
    (analysis : Analysis) : String :=
  let userRating := jsOrInt userData.rating 1200
  let lo := max 800 (userRating - 100)
  let hi := userRating + 100
  let r := "## Codeforces Analysis for " ++ handle ++ "\n\n"
  let r := r ++ "### 📊 Basic Statistics\n"
  let r := r ++ "- **Rating**: " ++ jsShowIntOr userData.rating "Unrated" ++ " (" ++
    jsOrStr userData.rank "Unranked" ++ ")\n"
  let r := r ++ "- **Max Rating**: " ++
    jsShowIntOrChain userData.maxRating userData.rating "Unrated" ++ "\n"
  let r := r ++ "- **Problems Solved**: " ++ toString analysis.totalProblemsSolved ++ "\n"
  let r := r ++ "- **Acceptance Rate**: " ++
    percentStr analysis.totalAccepted analysis.totalSubmissions ++ "%\n\n"
  let r := r ++ "### 🏆 Top Strengths\n"
  let r := numbered r (analysis.topTags.take 3) (fun i tc =>
    toString (i + 1) ++ ". **" ++ tc.1 ++ "**: " ++ toString tc.2 ++ " problems solved\n")
  let r := r ++ "\n### 📈 Areas for Improvement\n"
  let r := numbered r (analysis.weakTags.take 3) (fun i tag =>
    toString (i + 1) ++ ". **" ++ tag ++ "**: Only " ++
      toString (alistLookupD analysis.solvedByTag tag 0) ++ " problems solved\n")
  let r := r ++ "\n### 🎯 Recommended Next Steps\n"
  let r := r ++ "1. **Target Rating**: Practice problems rated " ++ toString lo ++ "-" ++
    toString hi ++ "\n"
  let r := r ++ "2. **Weak Areas**: Focus on " ++
    jsHeadOr analysis.weakTags "dynamic programming" ++ " problems\n"
  let r := r ++ "3. **Contest Strategy**: Participate in Div 2 contests regularly\n"
  let r := r ++ "4. **Learning Plan**: Solve 5-10 problems daily from different categories\n\n"
  let r := r ++ "### 💡 Specific Recommendations\n"
  let r := r ++ "- **Immediate Focus**: " ++ jsHeadOr analysis.weakTags "Graph Theory" ++
    " problems\n"
  let r := r ++ "- **Problem Count**: Aim for 50 more solves in your weak areas\n"
  let r := r ++ "- **Rating Goal**: Target " ++ toString (userRating + 100) ++
    " within 2 months\n"
  let r := r ++ "- **Resources**: Use Codeforces Edu section for tutorials\n\n"
  let r := r ++ "### 🔗 Recommended Practice Problems\n"
  let r := r ++ "(These are general recommendations - connect to backend for specific problem IDs)\n"
  let r := r ++ "1. Search Codeforces for \"" ++ jsHeadOr analysis.weakTags "dp" ++
    "\" tagged problems at " ++ toString lo ++ " rating\n"
  let r := r ++ "2. Try recent Div 2 A/B problems to build speed\n"
  r ++ "3. Practice virtual contests to simulate real competition\n"

/-! ## Substring predicate used to state "the output names ..." -/

/-- Whether `n` is a prefix of `h` (executable, structural). -/
def isPrefixB : List Char → List Char → Bool
  | [], _ => true
  | _ :: _, [] => false
  | a :: as, b :: bs => a == b && isPrefixB as bs

/-- Whether `n` occurs contiguously inside `h` (executable, structural). -/
def isInfixB (n : List Char) : List Char → Bool
  | [] => isPrefixB n []
  | b :: bs => isPrefixB n (b :: bs) || isInfixB n bs

/-- `containsB s t`: the text `t` occurs contiguously in the string `s`. -/
def containsB (s t : String) : Bool := isInfixB t.data s.data

/-! ## Concrete example data for witnesses and counterexamples -/

/-- An accepted submission to problem 1-A tagged `a`, rated 800. -/
def exA : Submission :=
  { problem := { contestId := 1, index := "A", tags := ["a"], rating := some 800 }
    verdict := "OK", programmingLanguage := "x", creationTimeSeconds := 10 }

/-- An accepted submission to problem 2-A tagged `b`, rated 900. -/
def exB : Submission :=
  { problem := { contestId := 2, index := "A", tags := ["b"], rating := some 900 }
    verdict := "OK", programmingLanguage := "x", creationTimeSeconds := 20 }

/-- A rejected earlier attempt at problem 1-A. -/
def exFail : Submission :=
  { problem := { contestId := 1, index := "A", tags := ["a"], rating := some 800 }
    verdict := "WRONG_ANSWER", programmingLanguage := "x", creationTimeSeconds := 5 }

/-- A profile whose rating is present (1400). -/
def exUser : UserData := { rating := some 1400, rank := none, maxRating := none
                           organization := none }

/-- A profile with no fields present. -/
def exUserNone : UserData := { rating := none, rank := none, maxRating := none
                               organization := none }

/-- A profile whose rating is present and equal to 0 (JS-falsy). -/
def exUserZero : UserData := { rating := some 0, rank := none, maxRating := none
                               organization := none }

/-- An `Analysis` whose weakest tag is `graphs`. -/
def exAnalysisGraphs : Analysis :=
  { totalProblemsSolved := 0, totalSubmissions := 0, totalAccepted := 0
    totalAttempts := 0, solvedByTag := [], solvedByRating := [], verdicts := []
    languages := [], topTags := [], weakTags := ["graphs"], ratingDistribution := []
    topLanguages := [], maxAttempts := 0, tagAccuracy := [], highestSolvedRating := 0
    problemStats := [], attemptsPerProblem := [] }

/-! # Theorems -/

/-! ## Association-list lemmas -/

theorem alistLookup_set_self {α β : Type} [DecidableEq α] (m : List (α × β)) (k : α) (v : β) :
    alistLookup (alistSet m k v) k = some v := by
  induction m with
  | nil => simp [alistSet, alistLookup]
  | cons p rest ih =>
    by_cases h : p.1 = k
    · simp [alistSet, alistLookup, h]
    · simp [alistSet, alistLookup, h, ih]

theorem alistLookup_set_ne {α β : Type} [DecidableEq α] (m : List (α × β)) (k t : α) (v : β)
    (h : k ≠ t) : alistLookup (alistSet m k v) t = alistLookup m t := by
  induction m with
  | nil => simp [alistSet, alistLookup, fun hh => h hh.symm ∘ Eq.symm, h]
  | cons p rest ih =>
    by_cases hp : p.1 = k
    · subst hp
      simp [alistSet, alistLookup, h]
    · simp [alistSet, alistLookup, hp, ih]

theorem lookupD_bump_self {α : Type} [DecidableEq α] (m : List (α × Nat)) (k : α) :
    alistLookupD (alistBump m k) k 0 = alistLookupD m k 0 + 1 := by
  induction m with
  | nil => simp [alistBump, alistLookup, alistLookupD]
  | cons p rest ih =>
    by_cases h : p.1 = k
    · simp [alistBump, alistLookup, alistLookupD, h]
    · simp [alistBump, alistLookup, alistLookupD, h] at ih ⊢
      exact ih

theorem lookupD_bump_ne {α : Type} [DecidableEq α] (m : List (α × Nat)) (k t : α) (h : k ≠ t) :
    alistLookupD (alistBump m k) t 0 = alistLookupD m t 0 := by
  induction m with
  | nil => simp [alistBump, alistLookup, alistLookupD, h]
  | cons p rest ih =>
    by_cases hp : p.1 = k
    · subst hp
      simp [alistBump, alistLookup, alistLookupD, h]
    · by_cases ht : p.1 = t
      · simp [alistBump, alistLookup, alistLookupD, hp, ht, Ne.symm h]
      · simp [alistBump, alistLookup, alistLookupD, hp, ht] at ih ⊢
        exact ih

theorem sumValues_bump {α : Type} [DecidableEq α] (m : List (α × Nat)) (k : α) :
    sumValues (alistBump m k) = sumValues m + 1 := by
  induction m with
  | nil => simp [alistBump, sumValues]
  | cons p rest ih =>
    by_cases h : p.1 = k
    · simp [alistBump, sumValues, h]
      omega
    · simp [alistBump, sumValues, h] at ih ⊢
      omega

theorem lookupD_foldl_bump {α : Type} [DecidableEq α] (tags : List α) (m : List (α × Nat))
    (t : α) :
    alistLookupD (tags.foldl alistBump m) t 0 = alistLookupD m t 0 + tags.count t := by
  induction tags generalizing m with
  | nil => simp
  | cons a rest ih =>
    by_cases h : a = t
    · subst h
      simp [List.foldl_cons, ih, lookupD_bump_self, List.count_cons]
      omega
    · simp [List.foldl_cons, ih, lookupD_bump_ne m a t h, List.count_cons, h]

/-! ## `listMax` lemmas -/

theorem le_listMax {l : List Nat} {x : Nat} (h : x ∈ l) : x ≤ listMax l := by
  induction l with
  | nil => cases h
  | cons a rest ih =>
    rw [List.mem_cons] at h
    rcases h with h | h
    · subst h
      simp only [listMax, List.foldr_cons]
      exact le_max_left _ _
    · simp only [listMax, List.foldr_cons]
      exact le_trans (ih h) (le_max_right _ _)

theorem listMax_le {l : List Nat} {b : Nat} (h : ∀ x ∈ l, x ≤ b) : listMax l ≤ b := by
  induction l with
  | nil => simp [listMax]
  | cons a rest ih =>
    simp only [listMax, List.foldr_cons]
    exact max_le (h a (by simp)) (ih fun x hx => h x (List.mem_cons_of_mem _ hx))

theorem listMax_append_singleton (l : List Nat) (x : Nat) :
    listMax (l ++ [x]) = max (listMax l) x := by
  induction l with
  | nil => simp [listMax]
  | cons a rest ih =>
    simp only [listMax, List.cons_append, List.foldr_cons] at ih ⊢
    rw [ih, max_assoc]

/-! ## `firstOk` lemmas -/

theorem firstOk_append (l : List Submission) (s : Submission) (k : String) :
    firstOk (l ++ [s]) k = (firstOk l k).or (firstOk [s] k) := by
  simp [firstOk, List.find?_append]

theorem firstOk_isSome_of_mem (l : List Submission) (k : String)
    (h : ∃ s ∈ l, problemKey s = k ∧ s.verdict = "OK") : (firstOk l k).isSome = true := by
  rw [firstOk, List.find?_isSome]
  rcases h with ⟨s, hs, hk, hv⟩
  exact ⟨s, hs, by simp [hk, hv]⟩

theorem firstOk_eq_none (l : List Submission) (k : String)
    (h : ¬ ∃ s ∈ l, problemKey s = k ∧ s.verdict = "OK") : firstOk l k = none := by
  rw [firstOk, List.find?_eq_none]
  intro s hs
  simp only [Bool.and_eq_true, decide_eq_true_eq, not_and]
  intro hk hv
  exact h ⟨s, hs, hk, hv⟩

theorem firstOk_append_of_mem (l : List Submission) (s : Submission) (k : String)
    (h : ∃ s' ∈ l, problemKey s' = k ∧ s'.verdict = "OK") :
    firstOk (l ++ [s]) k = firstOk l k := by
  rw [firstOk_append]
  rcases Option.isSome_iff_exists.mp (firstOk_isSome_of_mem l k h) with ⟨a, ha⟩
  simp [ha]

theorem firstOk_append_self (l : List Submission) (s : Submission)
    (hv : s.verdict = "OK")
    (h : ¬ ∃ s' ∈ l, problemKey s' = problemKey s ∧ s'.verdict = "OK") :
    firstOk (l ++ [s]) (problemKey s) = some s := by
  rw [firstOk_append, firstOk_eq_none l _ h]
  simp [firstOk, List.find?, hv]

theorem firstOk_append_ne (l : List Submission) (s : Submission) (k : String)
    (h : problemKey s ≠ k) : firstOk (l ++ [s]) k = firstOk l k := by
  rw [firstOk_append]
  have : firstOk [s] k = none := by
    simp [firstOk, List.find?, h]
  rw [this]
  cases firstOk l k <;> rfl

/-! ## `step` component lemmas -/

theorem analyzeState_append (l : List Submission) (s : Submission) :
    analyzeState (l ++ [s]) = step (analyzeState l) s := by
  simp [analyzeState, List.foldl_append]

theorem step_solvedProblems (st : AnalyzerState) (s : Submission) :
    (step st s).solvedProblems =
      if s.verdict = "OK" ∧ problemKey s ∉ st.solvedProblems then
        st.solvedProblems ++ [problemKey s]
      else st.solvedProblems := rfl

theorem step_solvedByTag (st : AnalyzerState) (s : Submission) :
    (step st s).solvedByTag =
      if s.verdict = "OK" ∧ problemKey s ∉ st.solvedProblems then
        s.problem.tags.foldl alistBump st.solvedByTag
      else st.solvedByTag := rfl

theorem step_solvedByRating (st : AnalyzerState) (s : Submission) :
    (step st s).solvedByRating =
      if (s.verdict = "OK" ∧ problemKey s ∉ st.solvedProblems) ∧ s.problem.rating.getD 0 ≠ 0 then
        alistBump st.solvedByRating (s.problem.rating.getD 0)
      else st.solvedByRating := rfl

theorem step_problemStats (st : AnalyzerState) (s : Submission) :
    (step st s).problemStats =
      alistSet st.problemStats (problemKey s)
        { solved := (stats0 st s).solved || decide (s.verdict = "OK")
          attempts := (stats0 st s).attempts + 1
          tags := (stats0 st s).tags
          rating := (stats0 st s).rating
          lastAttempt := max (stats0 st s).lastAttempt s.creationTimeSeconds } := rfl

theorem step_totalAccepted (st : AnalyzerState) (s : Submission) :
    (step st s).totalAccepted =
      if s.verdict = "OK" then st.totalAccepted + 1 else st.totalAccepted := rfl

theorem step_maxAttempts (st : AnalyzerState) (s : Submission) :
    (step st s).maxAttempts = max st.maxAttempts ((stats0 st s).attempts + 1) := rfl

theorem step_totalAttempts (st : AnalyzerState) (s : Submission) :
    (step st s).totalAttempts = st.totalAttempts + 1 := rfl

/-! ## The analyzer invariant -/

theorem analyzeState_inv (l : List Submission) : AnalyzerInv l (analyzeState l) := by
  induction l using List.reverseRecOn with
  | nil =>
    refine ⟨?_, ?_, ?_, ?_, ?_, ?_, ?_, ?_, ?_, ?_, ?_, ?_⟩ <;>
      simp [analyzeState, initState, alistLookup, alistLookupD, sumValues, listMax]
  | append_singleton l s ih =>
    rw [analyzeState_append]
    have hatt0 : (stats0 (analyzeState l) s).attempts =
        l.countP (fun s' => decide (problemKey s' = problemKey s)) := by
      cases h0 : alistLookup (analyzeState l).problemStats (problemKey s) with
      | some ps0 =>
        have := ih.stats_attempts _ ps0 h0
        simp [stats0, h0, this]
      | none =>
        have hno : ¬ ∃ s' ∈ l, problemKey s' = problemKey s := by
          intro hex
          have := (ih.stats_isSome (problemKey s)).mpr hex
          simp [h0] at this
        have hz : l.countP (fun s' => decide (problemKey s' = problemKey s)) = 0 :=
          List.countP_eq_zero.mpr (by
            intro a ha
            simp only [decide_eq_true_eq]
            intro hk
            exact hno ⟨a, ha, hk⟩)
        simp [stats0, h0, hz]
    have hcongT : ∀ k ∈ (analyzeState l).solvedProblems,
        firstOkTags (l ++ [s]) k = firstOkTags l k := by
      intro k hk
      rw [firstOkTags, firstOkTags, firstOk_append_of_mem l s k ((ih.solved_mem k).mp hk)]
    have hcongR : ∀ k ∈ (analyzeState l).solvedProblems,
        firstOkRating (l ++ [s]) k = firstOkRating l k := by
      intro k hk
      rw [firstOkRating, firstOkRating, firstOk_append_of_mem l s k ((ih.solved_mem k).mp hk)]
    refine ⟨?_, ?_, ?_, ?_, ?_, ?_, ?_, ?_, ?_, ?_, ?_, ?_⟩
    · -- totalAttempts
      rw [step_totalAttempts, ih.totalAttempts_eq]
      simp
    · -- totalAccepted
      rw [step_totalAccepted, ih.totalAccepted_eq]
      by_cases hOK : s.verdict = "OK" <;>
        simp [hOK, List.countP_append, List.countP_cons]
    · -- solvedProblems nodup
      rw [step_solvedProblems]
      by_cases hFS : s.verdict = "OK" ∧ problemKey s ∉ (analyzeState l).solvedProblems
      · rw [if_pos hFS]
        refine List.Nodup.append ih.solved_nodup (List.nodup_singleton _) ?_
        rw [List.disjoint_singleton]
        exact hFS.2
      · rw [if_neg hFS]
        exact ih.solved_nodup
    · -- solvedProblems membership
      intro k
      rw [step_solvedProblems]
      by_cases hFS : s.verdict = "OK" ∧ problemKey s ∉ (analyzeState l).solvedProblems
      · rw [if_pos hFS]
        constructor
        · intro hk
          rcases List.mem_append.mp hk with h | h
          · rcases (ih.solved_mem k).mp h with ⟨s', hs', hkk, hv⟩
            exact ⟨s', List.mem_append_left _ hs', hkk, hv⟩
          · have hk0 : k = problemKey s := List.mem_singleton.mp h
            exact ⟨s, List.mem_append_right _ (by simp), hk0.symm, hFS.1⟩
        · rintro ⟨s', hs', hkk, hv⟩
          rcases List.mem_append.mp hs' with h | h
          · exact List.mem_append_left _ ((ih.solved_mem k).mpr ⟨s', h, hkk, hv⟩)
          · have hss : s' = s := List.mem_singleton.mp h
            subst hss
            exact List.mem_append_right _ (List.mem_singleton.mpr hkk.symm)
      · rw [if_neg hFS]
        constructor
        · intro hk
          rcases (ih.solved_mem k).mp hk with ⟨s', hs', hkk, hv⟩
          exact ⟨s', List.mem_append_left _ hs', hkk, hv⟩
        · rintro ⟨s', hs', hkk, hv⟩
          rcases List.mem_append.mp hs' with h | h
          · exact (ih.solved_mem k).mpr ⟨s', h, hkk, hv⟩
          · have hss : s' = s := List.mem_singleton.mp h
            rw [hss] at hkk hv
            have hMem : problemKey s ∈ (analyzeState l).solvedProblems := by
              by_contra hx
              exact hFS ⟨hv, hx⟩
            exact hkk ▸ hMem
    · -- problemStats key presence
      intro k
      rw [step_problemStats]
      by_cases hk : problemKey s = k
      · subst hk
        rw [alistLookup_set_self]
        simp only [Option.isSome_some, true_iff]
        exact ⟨s, List.mem_append_right _ (by simp), rfl⟩
      · rw [alistLookup_set_ne _ _ _ _ hk, ih.stats_isSome k]
        constructor
        · rintro ⟨s', hs', hkk⟩
          exact ⟨s', List.mem_append_left _ hs', hkk⟩
        · rintro ⟨s', hs', hkk⟩
          rcases List.mem_append.mp hs' with h | h
          · exact ⟨s', h, hkk⟩
          · have hss : s' = s := List.mem_singleton.mp h
            exact absurd (hss ▸ hkk) hk
    · -- problemStats attempts
      intro k ps hps
      rw [step_problemStats] at hps
      by_cases hk : problemKey s = k
      · subst hk
        rw [alistLookup_set_self] at hps
        have hval := (Option.some_injective _ hps).symm
        rw [hval]
        simp only [List.countP_append, List.countP_cons, List.countP_nil, decide_eq_true_eq]
        rw [hatt0]
        simp
      · rw [alistLookup_set_ne _ _ _ _ hk] at hps
        rw [ih.stats_attempts k ps hps]
        simp [List.countP_append, List.countP_cons, hk]
    · -- problemStats solved flag
      intro k ps hps
      rw [step_problemStats] at hps
      by_cases hk : problemKey s = k
      · subst hk
        rw [alistLookup_set_self] at hps
        have hval := (Option.some_injective _ hps).symm
        rw [hval]
        simp only [Bool.or_eq_true, decide_eq_true_eq]
        cases h0 : alistLookup (analyzeState l).problemStats (problemKey s) with
        | some ps0 =>
          have hsv := ih.stats_solved _ ps0 h0
          simp only [stats0, h0, Option.getD_some]
          rw [hsv]
          constructor
          · rintro (⟨s', hs', hkk, hv⟩ | hOK)
            · exact ⟨s', List.mem_append_left _ hs', hkk, hv⟩
            · exact ⟨s, List.mem_append_right _ (by simp), rfl, hOK⟩
          · rintro ⟨s', hs', hkk, hv⟩
            rcases List.mem_append.mp hs' with h | h
            · exact Or.inl ⟨s', h, hkk, hv⟩
            · have hss : s' = s := List.mem_singleton.mp h
              subst hss
              exact Or.inr hv
        | none =>
          have hno : ¬ ∃ s' ∈ l, problemKey s' = problemKey s := by
            intro hex
            have := (ih.stats_isSome (problemKey s)).mpr hex
            simp [h0] at this
          simp only [stats0, h0, Option.getD_none, Bool.false_eq_true, false_or]
          constructor
          · intro hOK
            exact ⟨s, List.mem_append_right _ (by simp), rfl, hOK⟩
          · rintro ⟨s', hs', hkk, hv⟩
            rcases List.mem_append.mp hs' with h | h
            · exact absurd ⟨s', h, hkk⟩ hno
            · have hss : s' = s := List.mem_singleton.mp h
              subst hss
              exact hv
      · rw [alistLookup_set_ne _ _ _ _ hk] at hps
        rw [ih.stats_solved k ps hps]
        constructor
        · rintro ⟨s', hs', hkk, hv⟩
          exact ⟨s', List.mem_append_left _ hs', hkk, hv⟩
        · rintro ⟨s', hs', hkk, hv⟩
          rcases List.mem_append.mp hs' with h | h
          · exact ⟨s', h, hkk, hv⟩
          · have hss : s' = s := List.mem_singleton.mp h
            exact absurd (hss ▸ hkk) hk
    · -- problemStats lastAttempt
      intro k ps hps
      rw [step_problemStats] at hps
      by_cases hk : problemKey s = k
      · subst hk
        rw [alistLookup_set_self] at hps
        have hval := (Option.some_injective _ hps).symm
        rw [hval]
        have hfilt : (l ++ [s]).filter (fun s' => decide (problemKey s' = problemKey s)) =
            l.filter (fun s' => decide (problemKey s' = problemKey s)) ++ [s] := by
          rw [List.filter_append]
          simp [List.filter]
        rw [hfilt, List.map_append]
        simp only [List.map_cons, List.map_nil]
        rw [listMax_append_singleton]
        cases h0 : alistLookup (analyzeState l).problemStats (problemKey s) with
        | some ps0 =>
          have hlast := ih.stats_last _ ps0 h0
          simp [stats0, h0, hlast]
        | none =>
          have hno : ¬ ∃ s' ∈ l, problemKey s' = problemKey s := by
            intro hex
            have := (ih.stats_isSome (problemKey s)).mpr hex
            simp [h0] at this
          have hfe : l.filter (fun s' => decide (problemKey s' = problemKey s)) = [] := by
            rw [List.filter_eq_nil_iff]
            intro a ha
            simp only [decide_eq_true_eq]
            intro hkk
            exact hno ⟨a, ha, hkk⟩
          simp [stats0, h0, hfe, listMax]
      · rw [alistLookup_set_ne _ _ _ _ hk] at hps
        rw [ih.stats_last k ps hps]
        have hfilt : (l ++ [s]).filter (fun s' => decide (problemKey s' = k)) =
            l.filter (fun s' => decide (problemKey s' = k)) := by
          rw [List.filter_append]
          simp [List.filter, hk]
        rw [hfilt]
    · -- maxAttempts
      rw [step_maxAttempts, ih.max_eq, hatt0]
      apply Nat.le_antisymm
      · apply max_le
        · apply listMax_le
          intro x hx
          rcases List.mem_map.mp hx with ⟨k, hkded, rfl⟩
          have hk' : k ∈ ((l ++ [s]).map problemKey).dedup := by
            rw [List.mem_dedup, List.map_append]
            exact List.mem_append_left _ (List.mem_dedup.mp hkded)
          have hle : l.countP (fun s' => decide (problemKey s' = k)) ≤
              (l ++ [s]).countP (fun s' => decide (problemKey s' = k)) := by
            rw [List.countP_append]
            omega
          exact le_trans hle (le_listMax (List.mem_map.mpr ⟨k, hk', rfl⟩))
        · have hk0 : problemKey s ∈ ((l ++ [s]).map problemKey).dedup := by
            rw [List.mem_dedup, List.map_append]
            exact List.mem_append_right _ (by simp)
          have hnew : (l ++ [s]).countP (fun s' => decide (problemKey s' = problemKey s)) =
              l.countP (fun s' => decide (problemKey s' = problemKey s)) + 1 := by
            rw [List.countP_append]
            simp
          rw [← hnew]
          exact le_listMax (List.mem_map.mpr ⟨_, hk0, rfl⟩)
      · apply listMax_le
        intro x hx
        rcases List.mem_map.mp hx with ⟨k, hkded, rfl⟩
        by_cases hk : problemKey s = k
        · subst hk
          have hnew : (l ++ [s]).countP (fun s' => decide (problemKey s' = problemKey s)) =
              l.countP (fun s' => decide (problemKey s' = problemKey s)) + 1 := by
            rw [List.countP_append]
            simp
          rw [hnew]
          exact le_max_right _ _
        · have hsame : (l ++ [s]).countP (fun s' => decide (problemKey s' = k)) =
              l.countP (fun s' => decide (problemKey s' = k)) := by
            rw [List.countP_append]
            simp [hk]
          rw [hsame]
          have hkl : k ∈ (l.map problemKey).dedup := by
            rw [List.mem_dedup]
            rw [List.mem_dedup, List.map_append] at hkded
            rcases List.mem_append.mp hkded with h | h
            · exact h
            · exact absurd (List.mem_singleton.mp h).symm hk
          exact le_trans (le_listMax (List.mem_map.mpr ⟨k, hkl, rfl⟩)) (le_max_left _ _)
    · -- solvedByTag counts
      intro t
      rw [step_solvedByTag, step_solvedProblems]
      by_cases hFS : s.verdict = "OK" ∧ problemKey s ∉ (analyzeState l).solvedProblems
      · rw [if_pos hFS, if_pos hFS, lookupD_foldl_bump, ih.tag_eq t, List.map_append,
          List.sum_append]
        have hmap : (analyzeState l).solvedProblems.map
              (fun k => (firstOkTags (l ++ [s]) k).count t) =
            (analyzeState l).solvedProblems.map (fun k => (firstOkTags l k).count t) :=
          List.map_congr_left (fun k hk => by rw [hcongT k hk])
        have hk0 : firstOkTags (l ++ [s]) (problemKey s) = s.problem.tags := by
          rw [firstOkTags, firstOk_append_self l s hFS.1]
          intro hex
          exact hFS.2 ((ih.solved_mem (problemKey s)).mpr hex)
        rw [hmap, List.map_singleton, hk0]
        simp
      · rw [if_neg hFS, if_neg hFS, ih.tag_eq t]
        exact congrArg List.sum
          (List.map_congr_left (fun k hk => by rw [hcongT k hk])).symm
    · -- solvedByRating sum
      rw [step_solvedByRating, step_solvedProblems]
      have hcnt : (analyzeState l).solvedProblems.countP
            (fun k => decide ((firstOkRating (l ++ [s]) k).getD 0 ≠ 0)) =
          (analyzeState l).solvedProblems.countP
            (fun k => decide ((firstOkRating l k).getD 0 ≠ 0)) :=
        List.countP_congr (fun k hk => by rw [hcongR k hk])
      by_cases hFS : s.verdict = "OK" ∧ problemKey s ∉ (analyzeState l).solvedProblems
      · have hR0 : firstOkRating (l ++ [s]) (problemKey s) = s.problem.rating := by
          rw [firstOkRating, firstOk_append_self l s hFS.1]
          · rfl
          · intro hex
            exact hFS.2 ((ih.solved_mem (problemKey s)).mpr hex)
        by_cases hR : s.problem.rating.getD 0 ≠ 0
        · rw [if_pos ⟨hFS, hR⟩, if_pos hFS, sumValues_bump, ih.rating_sum,
            List.countP_append, hcnt]
          simp [hR0, hR]
        · rw [if_neg (by intro hc; exact hR hc.2), if_pos hFS, ih.rating_sum,
            List.countP_append, hcnt]
          simp only [List.countP_cons, List.countP_nil, decide_eq_true_eq]
          rw [hR0]
          simp [hR]
      · rw [if_neg (by intro hc; exact hFS hc.1), if_neg hFS, ih.rating_sum, hcnt]
    · -- solvedByRating per-rating counts
      intro r
      rw [step_solvedByRating, step_solvedProblems]
      have hcnt2 : (analyzeState l).solvedProblems.countP
            (fun k => decide ((firstOkRating (l ++ [s]) k).getD 0 = r ∧ r ≠ 0)) =
          (analyzeState l).solvedProblems.countP
            (fun k => decide ((firstOkRating l k).getD 0 = r ∧ r ≠ 0)) :=
        List.countP_congr (fun k hk => by rw [hcongR k hk])
      by_cases hFS : s.verdict = "OK" ∧ problemKey s ∉ (analyzeState l).solvedProblems
      · have hR0 : firstOkRating (l ++ [s]) (problemKey s) = s.problem.rating := by
          rw [firstOkRating, firstOk_append_self l s hFS.1]
          · rfl
          · intro hex
            exact hFS.2 ((ih.solved_mem (problemKey s)).mpr hex)
        by_cases hR : s.problem.rating.getD 0 ≠ 0
        · rw [if_pos ⟨hFS, hR⟩, if_pos hFS, List.countP_append, hcnt2]
          by_cases hreq : r = s.problem.rating.getD 0
          · subst hreq
            rw [lookupD_bump_self, ih.rating_eq]
            simp only [List.countP_cons, List.countP_nil, decide_eq_true_eq]
            rw [hR0]
            simp [hR]
          · rw [lookupD_bump_ne _ _ _ (fun h => hreq h.symm), ih.rating_eq]
            simp only [List.countP_cons, List.countP_nil, decide_eq_true_eq]
            rw [hR0]
            simp [Ne.symm hreq]
        · rw [if_neg (by intro hc; exact hR hc.2), if_pos hFS, List.countP_append, hcnt2,
            ih.rating_eq]
          simp only [List.countP_cons, List.countP_nil, decide_eq_true_eq]
          rw [hR0]
          have h0 : s.problem.rating.getD 0 = 0 := not_not.mp hR
          have hfalse : ¬(s.problem.rating.getD 0 = r ∧ r ≠ 0) := by
            rw [h0]
            rintro ⟨h1, h2⟩
            exact h2 h1.symm
          simp [hfalse]
      · rw [if_neg (by intro hc; exact hFS hc.1), if_neg hFS, ih.rating_eq r, hcnt2]

/-! ## Stable-sort lemmas -/

theorem insertStable_perm {α : Type} (le : α → α → Bool) (x : α) (l : List α) :
    (insertStable le x l).Perm (x :: l) := by
  induction l with
  | nil => exact List.Perm.refl _
  | cons y ys ih =>
    rw [insertStable]
    by_cases h : (le x y && !le y x) = true
    · rw [if_pos h]
    · rw [if_neg h]
      exact (List.Perm.cons y ih).trans (List.Perm.swap x y ys)

theorem sortStable_foldl_perm {α : Type} (le : α → α → Bool) (l acc : List α) :
    (l.foldl (fun a x => insertStable le x a) acc).Perm (acc ++ l) := by
  induction l generalizing acc with
  | nil => simp
  | cons x xs ih =>
    rw [List.foldl_cons]
    refine (ih (insertStable le x acc)).trans ?_
    refine (List.Perm.append_right xs (insertStable_perm le x acc)).trans ?_
    exact (@List.perm_middle _ x acc xs).symm

theorem sortStable_perm {α : Type} (le : α → α → Bool) (l : List α) :
    (sortStable le l).Perm l := by
  simpa using sortStable_foldl_perm le l []

theorem insertStable_pairwise {α : Type} (le : α → α → Bool)
    (htot : ∀ a b, le a b = true ∨ le b a = true)
    (htrans : ∀ a b c, le a b = true → le b c = true → le a c = true)
    (x : α) (l : List α) (hl : List.Pairwise (fun a b => le a b = true) l) :
    List.Pairwise (fun a b => le a b = true) (insertStable le x l) := by
  induction l with
  | nil => simp [insertStable]
  | cons y ys ih =>
    rw [List.pairwise_cons] at hl
    rw [insertStable]
    by_cases h : (le x y && !le y x) = true
    · rw [if_pos h]
      rw [Bool.and_eq_true, Bool.not_eq_true'] at h
      refine List.pairwise_cons.mpr ⟨?_, List.pairwise_cons.mpr hl⟩
      intro z hz
      rcases List.mem_cons.mp hz with hzy | hzys
      · exact hzy ▸ h.1
      · exact htrans x y z h.1 (hl.1 z hzys)
    · rw [if_neg h]
      have hyx : le y x = true := by
        rw [Bool.and_eq_true, Bool.not_eq_true'] at h
        rcases htot x y with hxy | hyx
        · by_cases hyx' : le y x = true
          · exact hyx'
          · exact absurd ⟨hxy, Bool.eq_false_iff.mpr hyx'⟩ h
        · exact hyx
      refine List.pairwise_cons.mpr ⟨?_, ih hl.2⟩
      intro z hz
      rcases List.mem_cons.mp ((insertStable_perm le x ys).mem_iff.mp hz) with hzx | hzys
      · exact hzx ▸ hyx
      · exact hl.1 z hzys

theorem sortStable_pairwise {α : Type} (le : α → α → Bool)
    (htot : ∀ a b, le a b = true ∨ le b a = true)
    (htrans : ∀ a b c, le a b = true → le b c = true → le a c = true)
    (l : List α) :
    List.Pairwise (fun a b => le a b = true) (sortStable le l) := by
  have H : ∀ acc, List.Pairwise (fun a b => le a b = true) acc →
      List.Pairwise (fun a b => le a b = true)
        (l.foldl (fun a x => insertStable le x a) acc) := by
    induction l with
    | nil => intro acc hacc; exact hacc
    | cons x xs ih =>
      intro acc hacc
      rw [List.foldl_cons]
      exact ih _ (insertStable_pairwise le htot htrans x acc hacc)
  exact H [] List.Pairwise.nil

/-! ## Substring lemmas -/

theorem isPrefixB_append_same (a : List Char) {b c : List Char}
    (h : isPrefixB b c = true) : isPrefixB (a ++ b) (a ++ c) = true := by
  induction a with
  | nil => exact h
  | cons x xs ih => simp [isPrefixB, ih]

theorem isPrefixB_self_append (n rest : List Char) : isPrefixB n (n ++ rest) = true := by
  induction n with
  | nil => rfl
  | cons x xs ih => simp [isPrefixB, ih]

theorem infixB_of_prefixB {n h : List Char} (hp : isPrefixB n h = true) :
    isInfixB n h = true := by
  cases h with
  | nil => exact hp
  | cons b bs =>
    rw [isInfixB, Bool.or_eq_true]
    exact Or.inl hp

theorem infixB_chunk (c : List Char) {n h : List Char} (hi : isInfixB n h = true) :
    isInfixB n (c ++ h) = true := by
  induction c with
  | nil => exact hi
  | cons x xs ih =>
    rw [List.cons_append, isInfixB, Bool.or_eq_true]
    exact Or.inr ih

/-! ## Derived facts about the analyzer -/

theorem listMax_perm {l l' : List Nat} (h : l.Perm l') : listMax l = listMax l' :=
  le_antisymm (listMax_le fun x hx => le_listMax (h.mem_iff.mp hx))
    (listMax_le fun x hx => le_listMax (h.mem_iff.mpr hx))

theorem sum_indicator_eq_countP {α : Type} (p : α → Prop) [DecidablePred p] (l : List α) :
    (l.map (fun a => if p a then 1 else 0)).sum = l.countP (fun a => decide (p a)) := by
  induction l with
  | nil => simp
  | cons a rest ih =>
    by_cases h : p a <;> simp [h, ih, List.countP_cons] <;> omega

/-- The running `solvedProblems` set is, up to order, exactly the set of
distinct keys of accepted submissions. -/
theorem solvedProblems_perm (l : List Submission) :
    (analyzeState l).solvedProblems.Perm
      (((l.filter (fun s => decide (s.verdict = "OK"))).map problemKey).dedup) := by
  refine (List.perm_ext_iff_of_nodup (analyzeState_inv l).solved_nodup
    (List.nodup_dedup _)).mpr ?_
  intro k
  rw [(analyzeState_inv l).solved_mem k, List.mem_dedup, List.mem_map]
  constructor
  · rintro ⟨s, hs, hk, hv⟩
    exact ⟨s, List.mem_filter.mpr ⟨hs, by simp [hv]⟩, hk⟩
  · rintro ⟨s, hs, hk⟩
    have hm := List.mem_filter.mp hs
    exact ⟨s, hm.1, hk, by simpa using hm.2⟩

/-! # Claim theorems -/

/-- C1 (evaluation of the code at the failing input): with
`totalSubmissions = 0` the Prompt Synthesizer (`generateCodeforcesPrompt`)
renders the acceptance rate as `NaN%` — JS `0/0` is `NaN` — and not the `0%`
the claim requires; the frontend Fallback Synthesizer copy
(`generateFallbackRecommendations`) does the same, and only the backend
fallback copy (`generateCodeforcesFallback`) special-cases the zero
denominator and renders `0%`. -/
theorem c1_zero_denominator_nan :
    percentStr 0 0 = "NaN" ∧
    containsB (generateCodeforcesPrompt "alice" exUserNone (analyzeSubmissions []))
      "- Acceptance Rate: NaN%" = true ∧
    containsB (generateCodeforcesPrompt "alice" exUserNone (analyzeSubmissions []))
      "0%" = false ∧
    containsB (generateFallbackRecommendations "alice" exUserNone (analyzeSubmissions []))
      "- **Acceptance Rate**: NaN%" = true ∧
    containsB (generateCodeforcesFallback "alice" exUserNone (analyzeSubmissions []))
      "- **Acceptance Rate**: 0%" = true :=
  ⟨by decide, by decide, by decide, by decide, by decide⟩

/-- C2 counterexample: swapping two accepted submissions to two different
problems (tags `a` and `b`, each solved once) permutes the input but changes
`topTags` — the stable sort breaks the count tie by first-seen order — so
`analyzeSubmissions` does not return the same `Analysis` on every
permutation. -/
theorem c2_perm_counterexample :
    ([exA, exB].Perm [exB, exA]) ∧
    (analyzeSubmissions [exA, exB]).topTags ≠ (analyzeSubmissions [exB, exA]).topTags ∧
    analyzeSubmissions [exA, exB] ≠ analyzeSubmissions [exB, exA] := by
  refine ⟨List.Perm.swap exB exA [], by decide, fun h => ?_⟩
  exact absurd (congrArg Analysis.topTags h) (by decide)

/-- C2 (amended): a permutation of the input preserves the scalar aggregates
`totalSubmissions`, `totalAttempts`, `totalAccepted`, `totalProblemsSolved`
and `maxAttempts`, and every problem's `lastAttempt` equals the true maximum
of that problem's submission timestamps — an order-free quantity, hence equal
across permutations; the derived sequences (`topTags`, `weakTags`,
`topLanguages`) and the insertion-ordered mappings need not be preserved,
because sort ties and per-problem metadata are resolved by first-seen
order. -/
theorem c2_perm_invariants (l₁ l₂ : List Submission) (hp : l₁.Perm l₂) :
    (analyzeSubmissions l₁).totalSubmissions = (analyzeSubmissions l₂).totalSubmissions ∧
    (analyzeSubmissions l₁).totalAttempts = (analyzeSubmissions l₂).totalAttempts ∧
    (analyzeSubmissions l₁).totalAccepted = (analyzeSubmissions l₂).totalAccepted ∧
    (analyzeSubmissions l₁).totalProblemsSolved = (analyzeSubmissions l₂).totalProblemsSolved ∧
    (analyzeSubmissions l₁).maxAttempts = (analyzeSubmissions l₂).maxAttempts ∧
    (∀ k ps, alistLookup (analyzeSubmissions l₁).problemStats k = some ps →
      ps.lastAttempt = listMax ((l₁.filter (fun s => decide (problemKey s = k))).map
        Submission.creationTimeSeconds) ∧
      ∃ ps₂, alistLookup (analyzeSubmissions l₂).problemStats k = some ps₂ ∧
        ps₂.lastAttempt = ps.lastAttempt) := by
  have i₁ := analyzeState_inv l₁
  have i₂ := analyzeState_inv l₂
  refine ⟨hp.length_eq, ?_, ?_, ?_, ?_, ?_⟩
  · show (analyzeState l₁).totalAttempts = (analyzeState l₂).totalAttempts
    rw [i₁.totalAttempts_eq, i₂.totalAttempts_eq, hp.length_eq]
  · show (analyzeState l₁).totalAccepted = (analyzeState l₂).totalAccepted
    rw [i₁.totalAccepted_eq, i₂.totalAccepted_eq]
    exact hp.countP_eq _
  · show (analyzeState l₁).solvedProblems.length = (analyzeState l₂).solvedProblems.length
    rw [(solvedProblems_perm l₁).length_eq, (solvedProblems_perm l₂).length_eq]
    exact (((hp.filter _).map problemKey).dedup).length_eq
  · show (analyzeState l₁).maxAttempts = (analyzeState l₂).maxAttempts
    rw [i₁.max_eq, i₂.max_eq]
    have haux : ∀ (la lb : List Submission), la.Perm lb →
        listMax (((la.map problemKey).dedup).map
          (fun k => la.countP (fun s => decide (problemKey s = k)))) ≤
        listMax (((lb.map problemKey).dedup).map
          (fun k => lb.countP (fun s => decide (problemKey s = k)))) := by
      intro la lb hab
      apply listMax_le
      intro x hx
      rcases List.mem_map.mp hx with ⟨k, hk, rfl⟩
      rw [hab.countP_eq]
      refine le_listMax (List.mem_map.mpr ⟨k, ?_, rfl⟩)
      rw [List.mem_dedup] at hk ⊢
      exact (hab.map problemKey).mem_iff.mp hk
    exact le_antisymm (haux l₁ l₂ hp) (haux l₂ l₁ hp.symm)
  · intro k ps hps
    have hps' : alistLookup (analyzeState l₁).problemStats k = some ps := hps
    refine ⟨i₁.stats_last k ps hps', ?_⟩
    have hsome : (alistLookup (analyzeState l₁).problemStats k).isSome = true := by
      rw [hps']
      rfl
    rcases (i₁.stats_isSome k).mp hsome with ⟨s, hs, hk⟩
    have h2 := (i₂.stats_isSome k).mpr ⟨s, hp.mem_iff.mp hs, hk⟩
    rcases Option.isSome_iff_exists.mp h2 with ⟨ps₂, hps₂⟩
    refine ⟨ps₂, hps₂, ?_⟩
    rw [i₂.stats_last k ps₂ hps₂, i₁.stats_last k ps hps']
    exact listMax_perm ((hp.symm.filter _).map _)

/-- C2 witness: the amended theorem applied to the concrete permuted pair. -/
theorem c2_perm_invariants_witness :
    ([exA, exB].Perm [exB, exA]) ∧
    (analyzeSubmissions [exA, exB]).totalProblemsSolved =
      (analyzeSubmissions [exB, exA]).totalProblemsSolved :=
  ⟨List.Perm.swap exB exA [],
    (c2_perm_invariants [exA, exB] [exB, exA] (List.Perm.swap exB exA [])).2.2.2.1⟩

/-- C3: `totalProblemsSolved` equals the number of distinct problem keys
having at least one `OK` submission, is therefore at most the number of
distinct keys present, and — when the tag lists are duplicate-free, as the
specification's "set of topic labels" requires — each solved problem
contributes exactly once per tag of its first accepted submission to
`solvedByTag`, and exactly once to `solvedByRating` at the (truthy) rating of
its first accepted submission, regardless of prior failures or later repeat
accepts. -/
theorem c3_solved_counts (l : List Submission)
    (htags : ∀ s ∈ l, s.problem.tags.Nodup) :
    (analyzeSubmissions l).totalProblemsSolved =
      ((l.filter (fun s => decide (s.verdict = "OK"))).map problemKey).dedup.length ∧
    (analyzeSubmissions l).totalProblemsSolved ≤ (l.map problemKey).dedup.length ∧
    (∀ t, alistLookupD (analyzeSubmissions l).solvedByTag t 0 =
      (((l.filter (fun s => decide (s.verdict = "OK"))).map problemKey).dedup).countP
        (fun k => decide (t ∈ firstOkTags l k))) ∧
    ∀ r, alistLookupD (analyzeSubmissions l).solvedByRating r 0 =
      (((l.filter (fun s => decide (s.verdict = "OK"))).map problemKey).dedup).countP
        (fun k => decide ((firstOkRating l k).getD 0 = r ∧ r ≠ 0)) := by
  have inv := analyzeState_inv l
  have hperm := solvedProblems_perm l
  have h1 : (analyzeSubmissions l).totalProblemsSolved =
      ((l.filter (fun s => decide (s.verdict = "OK"))).map problemKey).dedup.length :=
    hperm.length_eq
  refine ⟨h1, ?_, ?_, ?_⟩
  · rw [h1, ← List.card_toFinset, ← List.card_toFinset]
    apply Finset.card_le_card
    intro a ha
    rw [List.mem_toFinset] at ha ⊢
    rcases List.mem_map.mp ha with ⟨s, hs, rfl⟩
    exact List.mem_map.mpr ⟨s, (List.mem_filter.mp hs).1, rfl⟩
  · intro t
    have h2 : alistLookupD (analyzeSubmissions l).solvedByTag t 0 =
        ((analyzeState l).solvedProblems.map (fun k => (firstOkTags l k).count t)).sum :=
      inv.tag_eq t
    rw [h2]
    have h3 : ∀ k ∈ (analyzeState l).solvedProblems,
        (firstOkTags l k).count t = if t ∈ firstOkTags l k then 1 else 0 := by
      intro k hk
      have hsome := firstOk_isSome_of_mem l k ((inv.solved_mem k).mp hk)
      rcases Option.isSome_iff_exists.mp hsome with ⟨s₀, hs₀⟩
      have hfind := hs₀
      simp only [firstOk] at hfind
      have hmem : s₀ ∈ l := List.mem_of_find?_eq_some hfind
      have hnd : s₀.problem.tags.Nodup := htags s₀ hmem
      have hft : firstOkTags l k = s₀.problem.tags := by
        simp only [firstOkTags, hs₀]
      rw [hft]
      by_cases ht : t ∈ s₀.problem.tags
      · rw [if_pos ht, List.count_eq_one_of_mem hnd ht]
      · rw [if_neg ht, List.count_eq_zero_of_not_mem ht]
    rw [List.map_congr_left h3, sum_indicator_eq_countP (fun k => t ∈ firstOkTags l k)]
    exact hperm.countP_eq _
  · intro r
    have h4 : alistLookupD (analyzeSubmissions l).solvedByRating r 0 =
        (analyzeState l).solvedProblems.countP
          (fun k => decide ((firstOkRating l k).getD 0 = r ∧ r ≠ 0)) := inv.rating_eq r
    rw [h4]
    exact hperm.countP_eq _

/-- C3 witness: the theorem applied to a concrete run with a failed retry. -/
theorem c3_solved_counts_witness :
    (analyzeSubmissions [exFail, exA, exB]).totalProblemsSolved =
      (([exFail, exA, exB].filter (fun s => decide (s.verdict = "OK"))).map
        problemKey).dedup.length :=
  (c3_solved_counts [exFail, exA, exB] (by decide)).1

/-- C4: `topTags` is exactly the stable count-descending sort of the
`solvedByTag` entries truncated to 10, and `weakTags` exactly the tag names
of the stable count-ascending sort truncated to 5; each sorted sequence is a
permutation of the mapping's entries and is monotone in the count, and the
stable sort (`sortStable`, the model of `Array.prototype.sort`) breaks count
ties by the mapping's first-seen insertion order. -/
theorem c4_top_weak_tags (l : List Submission) :
    (analyzeSubmissions l).topTags =
      (sortStable byCountDesc (analyzeSubmissions l).solvedByTag).take 10 ∧
    (analyzeSubmissions l).weakTags =
      ((sortStable byCountAsc (analyzeSubmissions l).solvedByTag).take 5).map Prod.fst ∧
    (sortStable byCountDesc (analyzeSubmissions l).solvedByTag).Perm
      (analyzeSubmissions l).solvedByTag ∧
    (sortStable byCountAsc (analyzeSubmissions l).solvedByTag).Perm
      (analyzeSubmissions l).solvedByTag ∧
    List.Pairwise (fun a b => b.2 ≤ a.2)
      (sortStable byCountDesc (analyzeSubmissions l).solvedByTag) ∧
    List.Pairwise (fun a b => a.2 ≤ b.2)
      (sortStable byCountAsc (analyzeSubmissions l).solvedByTag) := by
  have htotD : ∀ a b : String × Nat, byCountDesc a b = true ∨ byCountDesc b a = true := by
    intro a b
    unfold byCountDesc
    rcases le_total b.2 a.2 with h | h
    · exact Or.inl (by simpa using h)
    · exact Or.inr (by simpa using h)
  have htransD : ∀ a b c : String × Nat, byCountDesc a b = true → byCountDesc b c = true →
      byCountDesc a c = true := by
    intro a b c hab hbc
    simp only [byCountDesc, decide_eq_true_eq] at hab hbc ⊢
    omega
  have htotA : ∀ a b : String × Nat, byCountAsc a b = true ∨ byCountAsc b a = true := by
    intro a b
    unfold byCountAsc
    rcases le_total a.2 b.2 with h | h
    · exact Or.inl (by simpa using h)
    · exact Or.inr (by simpa using h)
  have htransA : ∀ a b c : String × Nat, byCountAsc a b = true → byCountAsc b c = true →
      byCountAsc a c = true := by
    intro a b c hab hbc
    simp only [byCountAsc, decide_eq_true_eq] at hab hbc ⊢
    omega
  refine ⟨rfl, rfl, sortStable_perm _ _, sortStable_perm _ _, ?_, ?_⟩
  · exact (sortStable_pairwise byCountDesc htotD htransD _).imp
      (fun {a b} h => by simpa [byCountDesc] using h)
  · exact (sortStable_pairwise byCountAsc htotA htransA _).imp
      (fun {a b} h => by simpa [byCountAsc] using h)

/-- C5: the analyzer applied to the empty sequence returns the `Analysis`
whose counters are all 0, whose mappings and derived sequences are all empty,
and whose `highestSolvedRating` is 0. -/
theorem c5_empty_input :
    analyzeSubmissions [] =
      { totalProblemsSolved := 0, totalSubmissions := 0, totalAccepted := 0
        totalAttempts := 0, solvedByTag := [], solvedByRating := [], verdicts := []
        languages := [], topTags := [], weakTags := [], ratingDistribution := []
        topLanguages := [], maxAttempts := 0, tagAccuracy := [], highestSolvedRating := 0
        problemStats := [], attemptsPerProblem := [] } := rfl

/-- C6: the values of `solvedByRating` together with the count of solved
problems whose first accepted submission carries no (truthy) rating add up to
`totalProblemsSolved` — unrated solved problems are excluded from the sum but
still counted — and when every accepted submission carries a nonzero rating
the sum equals `totalProblemsSolved`. -/
theorem c6_rating_sum (l : List Submission) :
    (sumValues (analyzeSubmissions l).solvedByRating +
      (((l.filter (fun s => decide (s.verdict = "OK"))).map problemKey).dedup).countP
        (fun k => decide ((firstOkRating l k).getD 0 = 0)) =
      (analyzeSubmissions l).totalProblemsSolved) ∧
    ((∀ s ∈ l, s.verdict = "OK" → s.problem.rating.getD 0 ≠ 0) →
      sumValues (analyzeSubmissions l).solvedByRating =
        (analyzeSubmissions l).totalProblemsSolved) := by
  have inv := analyzeState_inv l
  have hperm := solvedProblems_perm l
  have hs : sumValues (analyzeSubmissions l).solvedByRating =
      (analyzeState l).solvedProblems.countP
        (fun k => decide ((firstOkRating l k).getD 0 ≠ 0)) := inv.rating_sum
  have hsplit : (analyzeState l).solvedProblems.countP
        (fun k => decide ((firstOkRating l k).getD 0 ≠ 0)) +
      (analyzeState l).solvedProblems.countP
        (fun k => decide ((firstOkRating l k).getD 0 = 0)) =
      (analyzeState l).solvedProblems.length := by
    rw [List.length_eq_countP_add_countP
      (fun k => decide ((firstOkRating l k).getD 0 ≠ 0))]
    congr 1
    apply List.countP_congr
    intro k hk
    simp [not_not]
  constructor
  · rw [hs, ← hperm.countP_eq]
    exact hsplit
  · intro h
    rw [hs]
    have hz : (analyzeState l).solvedProblems.countP
        (fun k => decide ((firstOkRating l k).getD 0 = 0)) = 0 := by
      rw [List.countP_eq_zero]
      intro k hk
      have hsome := firstOk_isSome_of_mem l k ((inv.solved_mem k).mp hk)
      rcases Option.isSome_iff_exists.mp hsome with ⟨s₀, hs₀⟩
      have hfind := hs₀
      simp only [firstOk] at hfind
      have hmem : s₀ ∈ l := List.mem_of_find?_eq_some hfind
      have hpred := List.find?_some hfind
      simp only [Bool.and_eq_true, decide_eq_true_eq] at hpred
      have hr := h s₀ hmem hpred.2
      rw [firstOkRating, hs₀]
      simp [hr]
    show _ = (analyzeState l).solvedProblems.length
    omega

/-- C6 witness: the theorem applied to a run where every accepted submission
is rated. -/
theorem c6_rating_sum_witness :
    sumValues (analyzeSubmissions [exA]).solvedByRating =
      (analyzeSubmissions [exA]).totalProblemsSolved :=
  (c6_rating_sum [exA]).2 (by decide)

/-- C7 counterexample: with rating 0 present (JS-falsy, so `rating || 1200`
selects the default), the backend fallback names the band 1100–1300, not the
claimed `[max(800, 0-100), 0+100] = [800, 100]`. -/
theorem c7_zero_rating_counterexample :
    containsB (generateCodeforcesFallback "alice" exUserZero exAnalysisGraphs)
      "1. **Target Rating**: Practice problems rated 800-100\n" = false ∧
    containsB (generateCodeforcesFallback "alice" exUserZero exAnalysisGraphs)
      "1. **Target Rating**: Practice problems rated 1100-1300\n" = true :=
  ⟨by decide, by decide⟩

/-- C7 (amended): for every handle, profile whose rating `r` is present and
nonzero, and Analysis whose first weak tag is a nonempty string, both
Fallback Synthesizer copies name the target band `[max(800, r-100), r+100]`
in their recommendation text and name the first weak tag as the immediate
focus. -/
theorem c7_band_and_focus (handle : String) (u : UserData) (ana : Analysis)
    (r : Int) (hu : u.rating = some r) (hr : r ≠ 0)
    (tag : String) (rest : List String) (hw : ana.weakTags = tag :: rest)
    (htag : tag ≠ "") :
    containsB (generateCodeforcesFallback handle u ana)
      ("1. **Target Rating**: Practice problems rated " ++ toString (max 800 (r - 100)) ++
        "-" ++ toString (r + 100) ++ "\n") = true ∧
    containsB (generateCodeforcesFallback handle u ana)
      ("- **Immediate Focus**: " ++ tag ++ " problems\n") = true ∧
    containsB (generateFallbackRecommendations handle u ana)
      ("1. **Target Rating**: Practice problems rated " ++ toString (max 800 (r - 100)) ++
        "-" ++ toString (r + 100) ++ "\n") = true ∧
    containsB (generateFallbackRecommendations handle u ana)
      ("- **Immediate Focus**: " ++ tag ++ " problems\n") = true := by
  refine ⟨?_, ?_, ?_, ?_⟩
  · simp only [generateCodeforcesFallback, containsB, hu, jsOrInt, if_neg hr]
    simp only [String.data_append, List.append_assoc]
    repeat
      first
      | exact infixB_of_prefixB (isPrefixB_append_same _ (isPrefixB_append_same _
          (isPrefixB_append_same _ (isPrefixB_append_same _ (isPrefixB_self_append _ _)))))
      | apply infixB_chunk
  · simp only [generateCodeforcesFallback, containsB, hu, jsOrInt, if_neg hr, hw, jsHeadOr,
      if_neg htag]
    simp only [String.data_append, List.append_assoc]
    repeat
      first
      | exact infixB_of_prefixB (isPrefixB_append_same _
          (isPrefixB_append_same _ (isPrefixB_self_append _ _)))
      | apply infixB_chunk
  · simp only [generateFallbackRecommendations, containsB, hu, jsOrInt, if_neg hr]
    simp only [String.data_append, List.append_assoc]
    repeat
      first
      | exact infixB_of_prefixB (isPrefixB_append_same _ (isPrefixB_append_same _
          (isPrefixB_append_same _ (isPrefixB_append_same _ (isPrefixB_self_append _ _)))))
      | apply infixB_chunk
  · simp only [generateFallbackRecommendations, containsB, hu, jsOrInt, if_neg hr, hw,
      jsHeadOr, if_neg htag]
    simp only [String.data_append, List.append_assoc]
    repeat
      first
      | exact infixB_of_prefixB (isPrefixB_append_same _
          (isPrefixB_append_same _ (isPrefixB_self_append _ _)))
      | apply infixB_chunk

/-- C7 witness: the spec's own scenario — handle `alice`, rating 1400,
weakest tag `graphs` — yields the band 1300–1500. -/
theorem c7_band_and_focus_witness :
    containsB (generateCodeforcesFallback "alice" exUser exAnalysisGraphs)
      ("1. **Target Rating**: Practice problems rated " ++
        toString (max 800 ((1400 : Int) - 100)) ++ "-" ++ toString ((1400 : Int) + 100) ++
        "\n") = true :=
  (c7_band_and_focus "alice" exUser exAnalysisGraphs 1400 rfl (by decide) "graphs" [] rfl
    (by decide)).1

/-- C8: the Fallback Synthesizer is deterministic — two invocations with
equal handle, profile and analysis inputs produce equal strings.  Both copies
are embedded as pure functions of exactly these three inputs, which is
faithful because the source consults no clock and no randomness source. -/
theorem c8_fallback_deterministic (h₁ h₂ : String) (u₁ u₂ : UserData) (a₁ a₂ : Analysis)
    (hh : h₁ = h₂) (hu : u₁ = u₂) (ha : a₁ = a₂) :
    generateCodeforcesFallback h₁ u₁ a₁ = generateCodeforcesFallback h₂ u₂ a₂ ∧
    generateFallbackRecommendations h₁ u₁ a₁ = generateFallbackRecommendations h₂ u₂ a₂ := by
  subst hh hu ha
  exact ⟨rfl, rfl⟩

/-- C8 witness: determinism at a concrete invocation pair. -/
theorem c8_fallback_deterministic_witness :
    generateCodeforcesFallback "alice" exUser exAnalysisGraphs =
      generateCodeforcesFallback "alice" exUser exAnalysisGraphs ∧
    generateFallbackRecommendations "alice" exUser exAnalysisGraphs =
      generateFallbackRecommendations "alice" exUser exAnalysisGraphs :=
  c8_fallback_deterministic "alice" "alice" exUser exUser exAnalysisGraphs exAnalysisGraphs
    rfl rfl rfl

/-- C9: once a record for a problem has been processed, its per-problem
`attempts` count is at least 1, and the `solved` flag is monotone along
prefixes of the input: if it is set after consuming a prefix, it is still set
after consuming any extension of that prefix. -/
theorem c9_attempt_state_invariant (l₁ l₂ : List Submission) (hpre : l₁ <+: l₂)
    (k : String) (ps₁ : PState)
    (hps : alistLookup (analyzeState l₁).problemStats k = some ps₁) :
    1 ≤ ps₁.attempts ∧
    (ps₁.solved = true →
      ∃ ps₂, alistLookup (analyzeState l₂).problemStats k = some ps₂ ∧
        ps₂.solved = true) := by
  obtain ⟨t, rfl⟩ := hpre
  have i₁ := analyzeState_inv l₁
  have i₂ := analyzeState_inv (l₁ ++ t)
  constructor
  · rw [i₁.stats_attempts k ps₁ hps]
    have hsome : (alistLookup (analyzeState l₁).problemStats k).isSome = true := by
      rw [hps]
      rfl
    rcases (i₁.stats_isSome k).mp hsome with ⟨s, hs, hk⟩
    exact List.countP_pos_iff.mpr ⟨s, hs, by simp [hk]⟩
  · intro hsolved
    rcases (i₁.stats_solved k ps₁ hps).mp hsolved with ⟨s, hs, hk, hv⟩
    have h2 := (i₂.stats_isSome k).mpr ⟨s, List.mem_append_left _ hs, hk⟩
    rcases Option.isSome_iff_exists.mp h2 with ⟨ps₂, hps₂⟩
    exact ⟨ps₂, hps₂,
      (i₂.stats_solved k ps₂ hps₂).mpr ⟨s, List.mem_append_left _ hs, hk, hv⟩⟩

/-- C9 witness: the invariant at the concrete prefix `[exA]` of
`[exA, exB]`. -/
theorem c9_attempt_state_invariant_witness :
    1 ≤ (⟨true, 1, ["a"], some 800, 10⟩ : PState).attempts ∧
    ((⟨true, 1, ["a"], some 800, 10⟩ : PState).solved = true →
      ∃ ps₂, alistLookup (analyzeState [exA, exB]).problemStats "1-A" = some ps₂ ∧
        ps₂.solved = true) :=
  c9_attempt_state_invariant [exA] [exA, exB] (by decide) "1-A"
    ⟨true, 1, ["a"], some 800, 10⟩ (by decide)

/-- C10: `totalAttempts` and `totalSubmissions` both equal the length of the
input sequence, so the two counters can never differ. -/
theorem c10_totals (l : List Submission) :
    (analyzeSubmissions l).totalAttempts = l.length ∧
    (analyzeSubmissions l).totalSubmissions = l.length ∧
    (analyzeSubmissions l).totalAttempts = (analyzeSubmissions l).totalSubmissions := by
  have h : (analyzeSubmissions l).totalAttempts = l.length :=
    (analyzeState_inv l).totalAttempts_eq
  exact ⟨h, rfl, h⟩

end CF

